import Mathlib

/-!
Verification of the query-execution layer of tcli (package `query`):
the expression engine (`expression_exec.go`) and the row/column stream
plans (`plan.go`). Go byte slices and strings are modelled as `List Nat`
(one entry per byte); Go `int`/`int64` as `Int`; fallible Go functions
returning `(T, error)` as `Except Err T`. External collaborators
(the storage cursor, the scalar-function registry, the parser AST
helpers that are not part of the two embedded files) are modelled from
the specification and marked as such in their doc comments.
-/

/-- Error values: Go `error` is modelled by its message string. -/
abbrev Err := String

/-- Byte sequences (Go `[]byte` and `string` payloads): one `Nat` per byte. -/
abbrev Bytes := List Nat

/-- Modelled from the spec: `KVPair` (declared outside the two embedded
files) is an ordered pair of key and value byte sequences; `NewKVP(key, val)`
is the anonymous constructor. -/
structure KVPair where
  key : Bytes
  value : Bytes
deriving DecidableEq, Repr

/-- Modelled from the spec: the type tag (Go `query.Type`, declared outside
the embedded files) with the three declared expression types. -/
inductive Ty where
  | TSTR
  | TNUMBER
  | TBOOL
deriving DecidableEq, Repr

/-- Modelled from the spec: ordering direction (Go `ASC` / `DESC`). -/
inductive OrderDir where
  | ASC
  | DESC
deriving DecidableEq, Repr

/-- Binary operator kinds of `BinaryOpExpr` (Go `Eq`, `NotEq`, `PrefixMatch`,
`RegExpMatch`, `And`, `Or`, `Add`, `Sub`, `Mul`, `Div`, `Gt`, `Gte`, `Lt`,
`Lte`, `In`, `Between`). -/
inductive Op where
  | Eq
  | NotEq
  | PrefixMatch
  | RegExpMatch
  | And
  | Or
  | Add
  | Sub
  | Mul
  | Div
  | Gt
  | Gte
  | Lt
  | Lte
  | In
  | Between
deriving DecidableEq, Repr

/-- The field keyword of `FieldExpr` (Go `KeyKW` / `ValueKW`). -/
inductive FieldKW where
  | KeyKW
  | ValueKW
deriving DecidableEq, Repr

/-- Runtime values (the Go `any` results of `Execute`). Go distinguishes
`string` from `[]byte`, and the distinction is observable in the
field-access code, so both are kept. IEEE-754 `float64` payloads are
modelled as rationals (no claim exercises rounding, NaN or infinity).
A `ListExpr` evaluates to its own (unevaluated) expression list; since
every evaluation path treats that result as an unrecognized shape, it is
modelled by the opaque marker `exprs`. Go `map[string]any` and the `JSON`
alias are modelled as one association list `dict`. -/
inductive Value where
  | bytes (b : Bytes)
  | str (s : Bytes)
  | int (i : Int)
  | float (q : Rat)
  | bool (b : Bool)
  | list (vs : List Value)
  | dict (m : List (Bytes × Value))
  | exprs

/-- Expression nodes of the engine. `funcCall` models `FunctionCallExpr`:
the declared return type comes from the external scalar-function registry,
`result` is the memoized constant result (`e.Result`), and `body` is the
resolved function closed over its (unevaluated) argument expressions, as
the registry is an external collaborator. -/
inductive Expr where
  | str (s : Bytes)
  | field (f : FieldKW)
  | binaryOp (op : Op) (l r : Expr)
  | notOp (r : Expr)
  | funcCall (retTp : Ty) (result : Option Value) (body : KVPair → Except Err Value)
  | name (s : Bytes)
  | num (i : Int)
  | float (q : Rat)
  | bool (b : Bool)
  | list (es : List Expr)
  | fieldAccess (l : Expr) (fieldName : Expr)

/-- Modelled from the spec: each node's immutable static return type
(the Go `ReturnType` methods are declared outside the embedded files).
String, name, field and field-access nodes are string-typed; integer and
float literals are number-typed; comparison, logical, membership and
range operators are boolean; `Add` is string-typed when its left operand
is (string concatenation), numeric otherwise. List literals never occur
where the declared type is consulted; `TSTR` is used as a placeholder. -/
def ReturnType : Expr → Ty
  | .str _ => .TSTR
  | .field _ => .TSTR
  | .binaryOp op l _ =>
    match op with
    | .Add => match ReturnType l with
      | .TSTR => .TSTR
      | _ => .TNUMBER
    | .Sub => .TNUMBER
    | .Mul => .TNUMBER
    | .Div => .TNUMBER
    | _ => .TBOOL
  | .notOp _ => .TBOOL
  | .funcCall tp _ _ => tp
  | .name _ => .TSTR
  | .num _ => .TNUMBER
  | .float _ => .TNUMBER
  | .bool _ => .TBOOL
  | .list _ => .TSTR
  | .fieldAccess _ _ => .TSTR

/-- Modelled from the spec: `convertToInt` (declared outside the embedded
files) converts any integer-like value to a 64-bit signed integer and
reports failure otherwise; on failure Go returns the zero value. The Go
`any` argument is `Option Value`, `none` standing for a Go nil. -/
def convertToInt : Option Value → Int × Bool
  | some (.int i) => (i, true)
  | _ => (0, false)

/-- Modelled from the spec: `convertToFloat` converts any float-like value
(floats and integers) to a 64-bit float, failing otherwise. -/
def convertToFloat : Option Value → Rat × Bool
  | some (.float q) => (q, true)
  | some (.int i) => ((i : Rat), true)
  | _ => (0, false)

/-- Modelled from the spec: `convertToByteArray` converts any string or
byte-like value to a byte sequence, failing otherwise. -/
def convertToByteArray : Option Value → Bytes × Bool
  | some (.bytes b) => (b, true)
  | some (.str s) => (s, true)
  | _ => ([], false)

/-- Decimal digits of a natural number, most significant first
(helper for `toString`). -/
def natDigits (n : Nat) : Bytes :=
  (Nat.toDigits 10 n).map Char.toNat

/-- Modelled from the spec: `toString` stringifies a runtime value for
string concatenation. Byte and string values pass through; integers and
booleans print in the usual decimal and `true`/`false` forms; the other
shapes (not exercised by any claim) print as an empty string. -/
def toStringV : Value → Bytes
  | .bytes b => b
  | .str s => s
  | .int i => if i < 0 then 45 :: natDigits i.natAbs else natDigits i.natAbs
  | .bool b => if b then [116, 114, 117, 101] else [102, 97, 108, 115, 101]
  | _ => []

/-- Go `bytes.Compare`: three-way byte-lexicographic comparison
returning -1, 0 or 1. -/
def bytesCompare : Bytes → Bytes → Int
  | [], [] => 0
  | [], _ :: _ => -1
  | _ :: _, [] => 1
  | a :: as, b :: bs =>
    if a < b then -1
    else if b < a then 1
    else bytesCompare as bs

/-- Comparison operator selector passed as a string in Go
(">", ">=", "<", "<=", "="). -/
inductive CmpOp where
  | gt
  | gte
  | lt
  | lte
  | eq
deriving DecidableEq, Repr

/-- Modelled from the spec: the package-level `execStringCompare`
(declared outside the embedded files): both operands are coerced to byte
sequences (an inconvertible operand is an error) and compared
byte-lexicographically under the selected operator. -/
def execStringCompare (left right : Option Value) (op : CmpOp) : Except Err Bool :=
  match convertToByteArray left, convertToByteArray right with
  | (lb, true), (rb, true) =>
    let c := bytesCompare lb rb
    match op with
    | .gt => .ok (c > 0)
    | .gte => .ok (c ≥ 0)
    | .lt => .ok (c < 0)
    | .lte => .ok (c ≤ 0)
    | .eq => .ok (c = 0)
  | _, _ => .error "execStringCompare value not string"

/-- Modelled from the spec: the package-level `execNumberCompare`: both
operands compare as 64-bit integers when both are integer-like, as 64-bit
floats when both are float-like, and otherwise the comparison is an error. -/
def execNumberCompare (left right : Option Value) (op : CmpOp) : Except Err Bool :=
  match convertToInt left, convertToInt right with
  | (li, true), (ri, true) =>
    match op with
    | .gt => .ok (li > ri)
    | .gte => .ok (li ≥ ri)
    | .lt => .ok (li < ri)
    | .lte => .ok (li ≤ ri)
    | .eq => .ok (li = ri)
  | _, _ =>
    match convertToFloat left, convertToFloat right with
    | (lf, true), (rf, true) =>
      match op with
      | .gt => .ok (lf > rf)
      | .gte => .ok (lf ≥ rf)
      | .lt => .ok (lf < rf)
      | .lte => .ok (lf ≤ rf)
      | .eq => .ok (lf = rf)
    | _, _ => .error "execNumberCompare value not number"

/-- Modelled from the spec: `executeMathOp` (declared outside the embedded
files): arithmetic on two integer-like operands (the op byte is one of
43 `+`, 45 `-`, 42 `*`, 47 `/`); no claim exercises this path, so the
float branch and error texts are schematic. -/
def executeMathOp (left right : Option Value) (op : Nat) : Except Err Value :=
  match convertToInt left, convertToInt right with
  | (li, true), (ri, true) =>
    if op = 43 then .ok (.int (li + ri))
    else if op = 45 then .ok (.int (li - ri))
    else if op = 42 then .ok (.int (li * ri))
    else if op = 47 then .ok (.int (li.tdiv ri))
    else .error "executeMathOp unknown operator"
  | _, _ => .error "executeMathOp value not number"

/-- The value-level core of `BinaryOpExpr.execEqual` (the Go type switch on
the left runtime value after both operands have been evaluated): bytes and
strings compare as byte sequences, integers as integers, booleans
logically; any other left shape, or a right operand not convertible to the
left shape, is an error. -/
def execEqualVals (rleft rright : Value) : Except Err Bool :=
  match rleft with
  | .bytes _ | .str _ =>
    match convertToByteArray (some rleft), convertToByteArray (some rright) with
    | (lb, true), (rb, true) => .ok (lb = rb)
    | _, _ => .error "Invalid = operator left type"
  | .int _ =>
    match convertToInt (some rleft), convertToInt (some rright) with
    | (li, true), (ri, true) => .ok (li = ri)
    | _, _ => .error "Invalid = operator left type"
  | .bool lb =>
    match rright with
    | .bool rb => .ok (lb = rb)
    | _ => .error "Invalid = operator left type"
  | _ => .error "Invalid = operator left type"

/-- `FieldAccessExpr.execDictAccess`: a named access into the evaluated
base value. Mapping bases (both Go `map[string]any` and `JSON`) look the
key up, a missing key yielding the empty-string sentinel; an empty string
base yields the sentinel; any other base shape is a type error. -/
def execDictAccess (fieldName : Bytes) (left : Value) : Except Err Value :=
  match left with
  | .dict m =>
    match m.lookup fieldName with
    | some v => .ok v
    | none => .ok (.str [])
  | .str s =>
    if s = [] then .ok (.str [])
    else .error "Invalid left type not JSON"
  | _ => .error "Invalid left type not JSON"

/-- `FieldAccessExpr.execListAccess`: a positional access into the
evaluated base value. The result `none` models a Go runtime panic: for a
list base the code only guards `idx < len(lval)`, so a negative index
reaches `lval[idx]` and aborts with an index-out-of-range panic. An index
at or beyond the length yields the empty-string sentinel, an empty string
base yields the sentinel, and any other base shape is a type error. -/
def execListAccess (idx : Int) (left : Value) : Option (Except Err Value) :=
  match left with
  | .list lval =>
    if h2 : idx < (lval.length : Int) then
      if h1 : 0 ≤ idx then
        some (.ok (lval.get ⟨idx.toNat, by omega⟩))
      else none
    else some (.ok (.str []))
  | .str s =>
    if s = [] then some (.ok (.str []))
    else some (.error "Invalid left type not List")
  | _ => some (.error "Invalid left type not List")

mutual

/-- The per-row evaluator `Execute(kv)` of the expression engine,
dispatching on the node and, for the operator node, on the operator kind
and (where the Go code does) the left operand's declared type. The bodies
of the Go helper methods (`execEqual`, `execAnd`, ..., reproduced below as
standalone definitions provably equal to the corresponding arm) are
inlined here so that the recursion stays structural. Regular-expression
matching (Go `regexp`, an external package no claim touches) is modelled
as an error result. -/
def Execute : Expr → KVPair → Except Err Value
  | .str s, _ => .ok (.bytes s)
  | .field f, kv =>
    match f with
    | .KeyKW => .ok (.bytes kv.key)
    | .ValueKW => .ok (.bytes kv.value)
  | .name s, _ => .ok (.str s)
  | .num i, _ => .ok (.int i)
  | .float q, _ => .ok (.float q)
  | .bool b, _ => .ok (.bool b)
  | .list _, _ => .ok .exprs
  | .notOp r, kv =>
    match Execute r kv with
    | .error e => .error e
    | .ok rright =>
      match rright with
      | .bool rb => .ok (.bool (!rb))
      | _ => .error "! right value error"
  | .funcCall _ result body, kv =>
    match result with
    | some v => .ok v
    | none => body kv
  | .fieldAccess l fieldName, kv =>
    match Execute l kv with
    | .error e => .error e
    | .ok left =>
      match fieldName with
      | .str s => execDictAccess s left
      | .num i =>
        match execListAccess i left with
        | some res => res
        | none => .error "panic: runtime error: index out of range"
      | _ => .error "Invalid field name"
  | .binaryOp op l r, kv =>
    match op with
    | .Eq =>
      match Execute l kv with
      | .error e => .error e
      | .ok rleft =>
        match Execute r kv with
        | .error e => .error e
        | .ok rright =>
          match execEqualVals rleft rright with
          | .error e => .error e
          | .ok b => .ok (.bool b)
    | .NotEq =>
      match Execute l kv with
      | .error e => .error e
      | .ok rleft =>
        match Execute r kv with
        | .error e => .error e
        | .ok rright =>
          match execEqualVals rleft rright with
          | .error e => .error e
          | .ok b => .ok (.bool (!b))
    | .PrefixMatch =>
      match Execute l kv with
      | .error e => .error e
      | .ok rleft =>
        match Execute r kv with
        | .error e => .error e
        | .ok rright =>
          match convertToByteArray (some rleft), convertToByteArray (some rright) with
          | (lb, true), (rb, true) => .ok (.bool (rb.isPrefixOf lb))
          | _, _ => .error "^= left value error"
    | .RegExpMatch =>
      match Execute l kv with
      | .error e => .error e
      | .ok _ =>
        match Execute r kv with
        | .error e => .error e
        | .ok _ => .error "regexp matching not modelled"
    | .And =>
      match Execute l kv with
      | .error e => .error e
      | .ok rleft =>
        match rleft with
        | .bool false => .ok (.bool false)
        | .bool true =>
          match Execute r kv with
          | .error e => .error e
          | .ok rright =>
            match rright with
            | .bool rb => .ok (.bool rb)
            | _ => .error "& right value type not bool"
        | _ => .error "& left value type not bool"
    | .Or =>
      match Execute l kv with
      | .error e => .error e
      | .ok rleft =>
        match rleft with
        | .bool true => .ok (.bool true)
        | .bool false =>
          match Execute r kv with
          | .error e => .error e
          | .ok rright =>
            match rright with
            | .bool rb => .ok (.bool rb)
            | _ => .error "| right value type not bool"
        | _ => .error "| left value type not bool"
    | .Add =>
      match ReturnType l with
      | .TSTR =>
        match Execute l kv with
        | .error e => .error e
        | .ok lval =>
          match Execute r kv with
          | .error e => .error e
          | .ok rval => .ok (.str (toStringV lval ++ toStringV rval))
      | _ =>
        match Execute l kv with
        | .error e => .error e
        | .ok lval =>
          match Execute r kv with
          | .error e => .error e
          | .ok rval => executeMathOp (some lval) (some rval) 43
    | .Sub =>
      match Execute l kv with
      | .error e => .error e
      | .ok lval =>
        match Execute r kv with
        | .error e => .error e
        | .ok rval => executeMathOp (some lval) (some rval) 45
    | .Mul =>
      match Execute l kv with
      | .error e => .error e
      | .ok lval =>
        match Execute r kv with
        | .error e => .error e
        | .ok rval => executeMathOp (some lval) (some rval) 42
    | .Div =>
      match Execute l kv with
      | .error e => .error e
      | .ok lval =>
        match Execute r kv with
        | .error e => .error e
        | .ok rval => executeMathOp (some lval) (some rval) 47
    | .Gt =>
      match ReturnType l with
      | .TSTR =>
        match Execute l kv with
        | .error e => .error e
        | .ok left =>
          match Execute r kv with
          | .error e => .error e
          | .ok right =>
            match execStringCompare (some left) (some right) .gt with
            | .error e => .error e
            | .ok b => .ok (.bool b)
      | _ =>
        match Execute l kv with
        | .error e => .error e
        | .ok left =>
          match Execute r kv with
          | .error e => .error e
          | .ok right =>
            match execNumberCompare (some left) (some right) .gt with
            | .error e => .error e
            | .ok b => .ok (.bool b)
    | .Gte =>
      match ReturnType l with
      | .TSTR =>
        match Execute l kv with
        | .error e => .error e
        | .ok left =>
          match Execute r kv with
          | .error e => .error e
          | .ok right =>
            match execStringCompare (some left) (some right) .gte with
            | .error e => .error e
            | .ok b => .ok (.bool b)
      | _ =>
        match Execute l kv with
        | .error e => .error e
        | .ok left =>
          match Execute r kv with
          | .error e => .error e
          | .ok right =>
            match execNumberCompare (some left) (some right) .gte with
            | .error e => .error e
            | .ok b => .ok (.bool b)
    | .Lt =>
      match ReturnType l with
      | .TSTR =>
        match Execute l kv with
        | .error e => .error e
        | .ok left =>
          match Execute r kv with
          | .error e => .error e
          | .ok right =>
            match execStringCompare (some left) (some right) .lt with
            | .error e => .error e
            | .ok b => .ok (.bool b)
      | _ =>
        match Execute l kv with
        | .error e => .error e
        | .ok left =>
          match Execute r kv with
          | .error e => .error e
          | .ok right =>
            match execNumberCompare (some left) (some right) .lt with
            | .error e => .error e
            | .ok b => .ok (.bool b)
    | .Lte =>
      match ReturnType l with
      | .TSTR =>
        match Execute l kv with
        | .error e => .error e
        | .ok left =>
          match Execute r kv with
          | .error e => .error e
          | .ok right =>
            match execStringCompare (some left) (some right) .lte with
            | .error e => .error e
            | .ok b => .ok (.bool b)
      | _ =>
        match Execute l kv with
        | .error e => .error e
        | .ok left =>
          match Execute r kv with
          | .error e => .error e
          | .ok right =>
            match execNumberCompare (some left) (some right) .lte with
            | .error e => .error e
            | .ok b => .ok (.bool b)
    | .In =>
      match ReturnType l with
      | .TSTR =>
        match Execute l kv with
        | .error e => .error e
        | .ok left =>
          match r with
          | .list es => execStringInLoop left kv es
          | _ => .error "operator in right expression is not list"
      | _ =>
        match Execute l kv with
        | .error e => .error e
        | .ok left =>
          match r with
          | .list es => execNumberInLoop left kv es
          | _ => .error "operator in right expression is not list"
    | .Between =>
      match ReturnType l with
      | .TSTR =>
        match Execute l kv with
        | .error e => .error e
        | .ok left =>
          match r with
          | .list [lexpr, uexpr] =>
            match ReturnType lexpr with
            | .TSTR =>
              match ReturnType uexpr with
              | .TSTR =>
                match Execute lexpr kv with
                | .error e => .error e
                | .ok lval =>
                  match Execute uexpr kv with
                  | .error e => .error e
                  | .ok uval =>
                    match execStringCompare (some lval) (some uval) .lt with
                    | .error e => .error e
                    | .ok false =>
                      .error "operator between lower boundary is greater than upper boundary."
                    | .ok true =>
                      match execStringCompare (some lval) (some left) .lte with
                      | .error e => .error e
                      | .ok false => .ok (.bool false)
                      | .ok true =>
                        match execStringCompare (some left) (some uval) .lte with
                        | .error e => .error e
                        | .ok ucmp => .ok (.bool ucmp)
              | _ => .error "operator between upper boundary expression type is not string"
            | _ => .error "operator between lower boundary expression type is not string"
          | _ => .error "operator between right expression is invalid"
      | _ =>
        match Execute l kv with
        | .error e => .error e
        | .ok left =>
          match r with
          | .list [lexpr, uexpr] =>
            match ReturnType lexpr with
            | .TNUMBER =>
              match ReturnType uexpr with
              | .TNUMBER =>
                match Execute lexpr kv with
                | .error e => .error e
                | .ok lval =>
                  match Execute uexpr kv with
                  | .error e => .error e
                  | .ok uval =>
                    match execNumberCompare (some lval) (some uval) .lt with
                    | .error e => .error e
                    | .ok false =>
                      .error "operator between lower boundary is greater than upper boundary."
                    | .ok true =>
                      match execNumberCompare (some lval) (some left) .lte with
                      | .error e => .error e
                      | .ok false => .ok (.bool false)
                      | .ok true =>
                        match execNumberCompare (some left) (some uval) .lte with
                        | .error e => .error e
                        | .ok ucmp => .ok (.bool ucmp)
              | _ => .error "operator between upper boundary expression type is not string"
            | _ => .error "operator between lower boundary expression type is not string"
          | _ => .error "operator between right expression is invalid"

/-- The loop of `BinaryOpExpr.execStringIn`: each element of the right
list literal must be declared string-typed; the evaluated element is
compared with the left value, true short-circuiting the loop and an
exhausted list yielding false. -/
def execStringInLoop (left : Value) (kv : KVPair) : List Expr → Except Err Value
  | [] => .ok (.bool false)
  | e :: rest =>
    match ReturnType e with
    | .TSTR =>
      match Execute e kv with
      | .error er => .error er
      | .ok lvalue =>
        match execStringCompare (some left) (some lvalue) .eq with
        | .error er => .error er
        | .ok true => .ok (.bool true)
        | .ok false => execStringInLoop left kv rest
    | _ => .error "operator in right expression type is not string"

/-- The loop of `BinaryOpExpr.execNumberIn`: the number-typed counterpart
of `execStringInLoop`. -/
def execNumberInLoop (left : Value) (kv : KVPair) : List Expr → Except Err Value
  | [] => .ok (.bool false)
  | e :: rest =>
    match ReturnType e with
    | .TNUMBER =>
      match Execute e kv with
      | .error er => .error er
      | .ok lvalue =>
        match execNumberCompare (some left) (some lvalue) .eq with
        | .error er => .error er
        | .ok true => .ok (.bool true)
        | .ok false => execNumberInLoop left kv rest
    | _ => .error "operator in right expression type is not number"

end

/-- `BinaryOpExpr.execEqual`: evaluates both operands and dispatches on
the left runtime value via `execEqualVals`. Go types the result as
`(bool, error)`; the boolean is boxed as a `Value` here, exactly as
`Execute` surfaces it (the `Eq` arm of `Execute` is this definition,
see `Execute_Eq_arm`). -/
def BinaryOpExpr.execEqual (l r : Expr) (kv : KVPair) : Except Err Value :=
  match Execute l kv with
  | .error e => .error e
  | .ok rleft =>
    match Execute r kv with
    | .error e => .error e
    | .ok rright =>
      match execEqualVals rleft rright with
      | .error e => .error e
      | .ok b => .ok (.bool b)

/-- `BinaryOpExpr.execAnd`: strict boolean conjunction with
short-circuiting; a false left operand returns false without evaluating
the right operand. -/
def BinaryOpExpr.execAnd (l r : Expr) (kv : KVPair) : Except Err Value :=
  match Execute l kv with
  | .error e => .error e
  | .ok rleft =>
    match rleft with
    | .bool false => .ok (.bool false)
    | .bool true =>
      match Execute r kv with
      | .error e => .error e
      | .ok rright =>
        match rright with
        | .bool rb => .ok (.bool rb)
        | _ => .error "& right value type not bool"
    | _ => .error "& left value type not bool"

/-- `BinaryOpExpr.execOr`: strict boolean disjunction with
short-circuiting; a true left operand returns true without evaluating
the right operand. -/
def BinaryOpExpr.execOr (l r : Expr) (kv : KVPair) : Except Err Value :=
  match Execute l kv with
  | .error e => .error e
  | .ok rleft =>
    match rleft with
    | .bool true => .ok (.bool true)
    | .bool false =>
      match Execute r kv with
      | .error e => .error e
      | .ok rright =>
        match rright with
        | .bool rb => .ok (.bool rb)
        | _ => .error "| right value type not bool"
    | _ => .error "| left value type not bool"

/-- `BinaryOpExpr.execStringBetween`: the right operand must be a
two-element list of string-typed expressions; after evaluating the
boundaries the code first requires `lower < upper` (strictly, via the
package comparator) and errors otherwise, then tests
`lower <= left && left <= upper`. -/
def BinaryOpExpr.execStringBetween (l r : Expr) (kv : KVPair) : Except Err Value :=
  match Execute l kv with
  | .error e => .error e
  | .ok left =>
    match r with
    | .list [lexpr, uexpr] =>
      match ReturnType lexpr with
      | .TSTR =>
        match ReturnType uexpr with
        | .TSTR =>
          match Execute lexpr kv with
          | .error e => .error e
          | .ok lval =>
            match Execute uexpr kv with
            | .error e => .error e
            | .ok uval =>
              match execStringCompare (some lval) (some uval) .lt with
              | .error e => .error e
              | .ok false =>
                .error "operator between lower boundary is greater than upper boundary."
              | .ok true =>
                match execStringCompare (some lval) (some left) .lte with
                | .error e => .error e
                | .ok false => .ok (.bool false)
                | .ok true =>
                  match execStringCompare (some left) (some uval) .lte with
                  | .error e => .error e
                  | .ok ucmp => .ok (.bool ucmp)
        | _ => .error "operator between upper boundary expression type is not string"
      | _ => .error "operator between lower boundary expression type is not string"
    | _ => .error "operator between right expression is invalid"

/-- `BinaryOpExpr.execNumberBetween`: the number-typed counterpart of
`execStringBetween`, with the same strict `lower < upper` precondition
(note the Go error strings also say "is not string" on the number path). -/
def BinaryOpExpr.execNumberBetween (l r : Expr) (kv : KVPair) : Except Err Value :=
  match Execute l kv with
  | .error e => .error e
  | .ok left =>
    match r with
    | .list [lexpr, uexpr] =>
      match ReturnType lexpr with
      | .TNUMBER =>
        match ReturnType uexpr with
        | .TNUMBER =>
          match Execute lexpr kv with
          | .error e => .error e
          | .ok lval =>
            match Execute uexpr kv with
            | .error e => .error e
            | .ok uval =>
              match execNumberCompare (some lval) (some uval) .lt with
              | .error e => .error e
              | .ok false =>
                .error "operator between lower boundary is greater than upper boundary."
              | .ok true =>
                match execNumberCompare (some lval) (some left) .lte with
                | .error e => .error e
                | .ok false => .ok (.bool false)
                | .ok true =>
                  match execNumberCompare (some left) (some uval) .lte with
                  | .error e => .error e
                  | .ok ucmp => .ok (.bool ucmp)
        | _ => .error "operator between upper boundary expression type is not string"
      | _ => .error "operator between lower boundary expression type is not string"
    | _ => .error "operator between right expression is invalid"

/-- `FilterExec` wraps the boolean-typed root expression of the parsed
`WhereStmt` (the `Ast.Expr` field is flattened into `expr`). -/
structure FilterExec where
  expr : Expr

/-- `FilterExec.Filter`: single-row predicate evaluation (Go `Filter`
delegates to `filterBatch` with a one-element chunk, which evaluates the
expression row by row and requires a boolean result). -/
def FilterExec.Filter (f : FilterExec) (kvp : KVPair) : Except Err Bool :=
  match Execute f.expr kvp with
  | .error e => .error e
  | .ok result =>
    match result with
    | .bool b => .ok b
    | _ => .error "Expression result is not boolean"

/-- The storage cursor is modelled by the list of rows it has yet to
yield, in byte-ascending key order (its Go contract); `Cursor.Next` pops
the head and signals end-of-stream on the empty list. Cursor I/O errors
are outside every claim and are not modelled. `FullScanPlan` holds the
filter and the cursor state after `Init` has seeked to the start. -/
structure FullScanPlan where
  Filter : FilterExec
  iter : List KVPair

/-- The fetch loop of `FullScanPlan.Next`: pull rows from the cursor,
skipping rows the filter rejects, until a row passes (yield it), the
filter errors (propagate), or the cursor exhausts (sentinel). The
returned list is the remaining cursor state. -/
def fullScanLoop (f : FilterExec) : List KVPair → Except Err (Option KVPair) × List KVPair
  | [] => (.ok none, [])
  | row :: rest =>
    match f.Filter row with
    | .error e => (.error e, rest)
    | .ok true => (.ok (some row), rest)
    | .ok false => fullScanLoop f rest

/-- `FullScanPlan.Next`. End of stream is the `.ok none` sentinel. -/
def FullScanPlan.Next (p : FullScanPlan) : Except Err (Option KVPair) × FullScanPlan :=
  match fullScanLoop p.Filter p.iter with
  | (res, it) => (res, { p with iter := it })

/-- `PrefixScanPlan` (the `Prefix` field is named `pfx` here): the cursor
state after `Init` has seeked to the prefix. -/
structure PrefixScanPlan where
  Filter : FilterExec
  pfx : Bytes
  iter : List KVPair

/-- The fetch loop of `PrefixScanPlan.Next`: stop (sentinel) at the first
key that does not start with the prefix, otherwise filter and yield as in
the full scan. -/
def prefixScanLoop (f : FilterExec) (pfx : Bytes) :
    List KVPair → Except Err (Option KVPair) × List KVPair
  | [] => (.ok none, [])
  | row :: rest =>
    if pfx.isPrefixOf row.key then
      match f.Filter row with
      | .error e => (.error e, rest)
      | .ok true => (.ok (some row), rest)
      | .ok false => prefixScanLoop f pfx rest
    else (.ok none, rest)

/-- `PrefixScanPlan.Next`. -/
def PrefixScanPlan.Next (p : PrefixScanPlan) : Except Err (Option KVPair) × PrefixScanPlan :=
  match prefixScanLoop p.Filter p.pfx p.iter with
  | (res, it) => (res, { p with iter := it })

/-- `RangeScanPlan`: `End = none` models a nil end bound; the cursor
state after `Init` has seeked to `Start` (if given). -/
structure RangeScanPlan where
  Filter : FilterExec
  End : Option Bytes
  iter : List KVPair

/-- The end-bound test of `RangeScanPlan.Next`
(Go `p.End != nil && bytes.Compare(key, p.End) > 0`). -/
def rangeKeyPastEnd (endB : Option Bytes) (key : Bytes) : Bool :=
  match endB with
  | some e => bytesCompare key e > 0
  | none => false

/-- The fetch loop of `RangeScanPlan.Next`: stop (sentinel) once the key
compares greater than the end bound (when one is set), otherwise filter
and yield as in the full scan. -/
def rangeScanLoop (f : FilterExec) (endB : Option Bytes) :
    List KVPair → Except Err (Option KVPair) × List KVPair
  | [] => (.ok none, [])
  | row :: rest =>
    if rangeKeyPastEnd endB row.key then
      (.ok none, rest)
    else
      match f.Filter row with
      | .error e => (.error e, rest)
      | .ok true => (.ok (some row), rest)
      | .ok false => rangeScanLoop f endB rest

/-- `RangeScanPlan.Next`. -/
def RangeScanPlan.Next (p : RangeScanPlan) : Except Err (Option KVPair) × RangeScanPlan :=
  match rangeScanLoop p.Filter p.End p.iter with
  | (res, it) => (res, { p with iter := it })

/-- `MultiGetPlan`: an explicit key list (sorted ascending at
construction by `NewMultiGetPlan`), the stored key count and the current
position. -/
structure MultiGetPlan where
  Keys : List Bytes
  numKeys : Nat
  idx : Nat
deriving DecidableEq, Repr

/-- The lookup loop of `MultiGetPlan.Next`. The Go loop runs while
`idx < numKeys`; it is driven here by the explicit counter
`gas = numKeys - idx`, consumed one unit per iteration, so `gas = 0` is
exactly the loop guard failing (sentinel). Each iteration reads
`Keys[idx]`, increments `idx`, performs the point lookup `get` (the
external `Txn.Get`, passed as a parameter), skips absent keys, and
filters present ones. The returned `Nat` is the final `idx`. -/
def mgLoop (get : Bytes → Except Err (Option Bytes)) (f : FilterExec) (keys : List Bytes) :
    Nat → Nat → Except Err (Option KVPair) × Nat
  | 0, idx => (.ok none, idx)
  | gas + 1, idx =>
    let key := keys.getD idx []
    match get key with
    | .error e => (.error e, idx + 1)
    | .ok none => mgLoop get f keys gas (idx + 1)
    | .ok (some val) =>
      match f.Filter ⟨key, val⟩ with
      | .error e => (.error e, idx + 1)
      | .ok true => (.ok (some ⟨key, val⟩), idx + 1)
      | .ok false => mgLoop get f keys gas (idx + 1)

/-- `MultiGetPlan.Next`. -/
def MultiGetPlan.Next (get : Bytes → Except Err (Option Bytes)) (f : FilterExec)
    (p : MultiGetPlan) : Except Err (Option KVPair) × MultiGetPlan :=
  match mgLoop get f p.Keys (p.numKeys - p.idx) p.idx with
  | (res, idx2) => (res, { p with idx := idx2 })

/-- `LimitPlan`: offset (`Start`), row budget (`Count`), the mutable
`current` and `skips` counters (Go `int`, modelled as `Int`), and the
child plan modelled by the stream of rows it has yet to yield (child
errors are outside every claim over this plan). -/
structure LimitPlan where
  Start : Int
  Count : Int
  current : Int
  skips : Int
  child : List KVPair
deriving DecidableEq, Repr

/-- The skip loop of `LimitPlan.Next`: while `skips < Start`, pull a row
from the child; a child sentinel inside the loop makes the whole call
return the sentinel (flag `true`); otherwise the loop ends with
`skips = Start` (flag `false`). Returns (skips, child, hit-end). -/
def limitSkip (start : Int) : Int → List KVPair → Int × List KVPair × Bool
  | skips, [] => if skips < start then (skips, [], true) else (skips, [], false)
  | skips, row :: rest =>
    if skips < start then limitSkip start (skips + 1) rest
    else (skips, row :: rest, false)

/-- `LimitPlan.Next`: run the skip loop, then yield a child row while
`current < Count`, signalling end-of-stream once `Count` rows have been
returned or the child exhausts. -/
def LimitPlan.Next (p : LimitPlan) : Option KVPair × LimitPlan :=
  match limitSkip p.Start p.skips p.child with
  | (skips2, child2, true) => (none, { p with skips := skips2, child := child2 })
  | (skips2, child2, false) =>
    if p.current ≥ p.Count then (none, { p with skips := skips2, child := child2 })
    else
      match child2 with
      | [] => (none, { p with skips := skips2, child := [] })
      | row :: rest =>
        (some row, { p with skips := skips2, child := rest, current := p.current + 1 })

/-- `LimitPlan.Init` state over a child stream (Go resets the counters
and delegates to the child's `Init`). -/
def LimitPlan.start (startN count : Int) (rows : List KVPair) : LimitPlan :=
  { Start := startN, Count := count, current := 0, skips := 0, child := rows }

/-- The row stream produced by calling `LimitPlan.Next` up to `fuel`
times, stopping at the first end-of-stream sentinel. -/
def limitRun : Nat → LimitPlan → List KVPair
  | 0, _ => []
  | fuel + 1, p =>
    match LimitPlan.Next p with
    | (some row, p2) => row :: limitRun fuel p2
    | (none, _) => []

/-- Modelled from the spec: `OrderField` (declared outside the embedded
files): an output column name (used by `FinalOrderPlan`), an ordering
expression and a direction. -/
structure OrderField where
  Name : String
  Field : Expr
  Order : OrderDir

/-- The value half of the pair Go's `Execute` returns beside a non-nil
error; `orderRow.Less` discards the error (`lval, _ :=`) and keeps this
junk value. Every `BinaryOpExpr` helper returns the Go boolean `false`
on its error paths (`return false, err` throughout
`expression_exec.go`, and the package-level
`executeMathOp`/`execStringCompare`/`execNumberCompare` helpers,
modelled from the spec, are taken to follow the same convention),
except `execStringConcate` which returns `"", err` — an empty string.
`FieldExpr`, `NotExpr`, `FunctionCallExpr` and `FieldAccessExpr` return
the nil interface on error (the resolved function body of a
`FunctionCallExpr`, an external collaborator, is modelled as doing the
same); the remaining node kinds never produce an error, so their junk
value is irrelevant and nil is used. -/
def executeErrVal (e : Expr) : Option Value :=
  match e with
  | .binaryOp op l _ =>
    match op with
    | .Add =>
      match ReturnType l with
      | .TSTR => some (.str [])
      | _ => some (.bool false)
    | _ => some (.bool false)
  | _ => none

/-- The Go interface value `orderRow.Less` actually sees after
`lval, _ := order.Field.Execute(lkv)`: the computed value on success,
the discarded-error junk value of the node otherwise. -/
def executeGoAny (e : Expr) (kv : KVPair) : Option Value :=
  match Execute e kv with
  | .ok v => some v
  | .error _ => executeErrVal e

/-- `orderRow.compareBool` (the Go receiver only supplies the order
list, so the comparators are standalone here): booleans order false
before true, inverted by `reverse`. The Go code applies unchecked
`.(bool)` assertions to both values (the left one is guarded by the
caller's type switch, the right one is not), so a non-bool value is a
runtime panic — the distinguished `none` result here. -/
def orderRow.compareBool (lval rval : Option Value) (reverse : Bool) : Option Int :=
  match lval with
  | some (.bool lbool) =>
    match rval with
    | some (.bool rbool) =>
      let lint : Int := if lbool then 1 else 0
      let rint : Int := if rbool then 1 else 0
      some (if lint = rint then 0
        else if reverse then (if lint > rint then -1 else 1)
        else if lint < rint then -1 else 1)
    | _ => none
  | _ => none

/-- `orderRow.compareInt`: both values coerced by `convertToInt`
(failures silently read as 0, as in Go where the error is discarded). -/
def orderRow.compareInt (lval rval : Option Value) (reverse : Bool) : Int :=
  let lint := (convertToInt lval).1
  let rint := (convertToInt rval).1
  if lint = rint then 0
  else if reverse then (if lint > rint then -1 else 1)
  else if lint < rint then -1 else 1

/-- `orderRow.compareFloat`: the float counterpart of
`orderRow.compareInt`. -/
def orderRow.compareFloat (lval rval : Option Value) (reverse : Bool) : Int :=
  let lf := (convertToFloat lval).1
  let rf := (convertToFloat rval).1
  if lf = rf then 0
  else if reverse then (if lf > rf then -1 else 1)
  else if lf < rf then -1 else 1

/-- `orderRow.compareBytes`: byte comparison of the coerced values, the
descending direction negating the result. -/
def orderRow.compareBytes (lval rval : Option Value) (reverse : Bool) : Int :=
  let lb := (convertToByteArray lval).1
  let rb := (convertToByteArray rval).1
  if reverse then 0 - bytesCompare lb rb
  else bytesCompare lb rb

/-- `orderRow.Less`: the multi-key comparator over raw rows. For each
order field in list order, both rows are evaluated via `executeGoAny`
(Go discards the evaluation error, so an erroring comparison field
yields the interface value `false`, enters the `bool` switch arm and
participates in `compareBool` — a tie there moves on to the next field)
and dispatched on the left result's runtime shape; a strictly-smaller
field decides `some true`, strictly-greater decides `some false`, a tie
moves to the next field, an unrecognized left shape decides
`some false`, and an exhausted field list is `some false`. A panic
inside `compareBool` (non-bool value under a bool-valued left) aborts
the Go program: the distinguished `none` result. -/
def orderRow.Less (orders : List OrderField) (l r : KVPair) : Option Bool :=
  match orders with
  | [] => some false
  | o :: rest =>
    let lval := executeGoAny o.Field l
    let rval := executeGoAny o.Field r
    let desc : Bool := o.Order = OrderDir.DESC
    match lval with
    | some (.int _) =>
      let c := orderRow.compareInt lval rval desc
      if c < 0 then some true else if c > 0 then some false else orderRow.Less rest l r
    | some (.float _) =>
      let c := orderRow.compareFloat lval rval desc
      if c < 0 then some true else if c > 0 then some false else orderRow.Less rest l r
    | some (.bytes _) =>
      let c := orderRow.compareBytes lval rval desc
      if c < 0 then some true else if c > 0 then some false else orderRow.Less rest l r
    | some (.str _) =>
      let c := orderRow.compareBytes lval rval desc
      if c < 0 then some true else if c > 0 then some false else orderRow.Less rest l r
    | some (.bool _) =>
      match orderRow.compareBool lval rval desc with
      | none => none
      | some c =>
        if c < 0 then some true else if c > 0 then some false else orderRow.Less rest l r
    | _ => some false

/-- One comparison step of the minimum scan: a `none` comparison (a Go
panic inside `Less`) aborts the scan, propagated as `none`. -/
def selectMinStep (less : KVPair → KVPair → Option Bool)
    (m : Option KVPair) (y : KVPair) : Option KVPair :=
  match m with
  | none => none
  | some mv =>
    match less y mv with
    | none => none
    | some b => if b then some y else some mv

/-- Modelled from the spec: the Go `container/heap` package (standard
library, external to the repository) maintains a binary min-heap under
the provided `Less`; its observable contract is that `Push` adds an
element and `Pop` removes and returns a minimum element according to
`Less` (tie order unspecified). The heap is modelled by the list of its
elements; `selectMin` picks the leftmost minimal element, and a panic
raised by a comparison (`Less` returning `none`) aborts the operation. -/
def selectMin (less : KVPair → KVPair → Option Bool) (x : KVPair) (xs : List KVPair) :
    Option KVPair :=
  xs.foldl (selectMinStep less) (some x)

/-- Modelled from the spec: `heap.Pop` on the element-list model: remove
and return a minimal element under `less`; `none` where Go aborts — on
the empty heap (unreachable from an initialized `OrderPlan`) or when a
comparison panics. -/
def heapPop (less : KVPair → KVPair → Option Bool) : List KVPair → Option (KVPair × List KVPair)
  | [] => none
  | x :: xs =>
    match selectMin less x xs with
    | none => none
    | some m => some (m, (x :: xs).erase m)

/-- `OrderPlan`: the order fields, the `pos`/`total` counters (Go `int`),
the heap contents (`sorted`, element-list model) and the child plan
modelled by its remaining row stream. -/
structure OrderPlan where
  Orders : List OrderField
  pos : Int
  total : Int
  sorted : List KVPair
  child : List KVPair

/-- `OrderPlan.prepare`: drain the entire child into the heap, counting
rows into `total` (`heap.Push` is element insertion in the list model). -/
def OrderPlan.prepare (p : OrderPlan) : OrderPlan :=
  { p with
      sorted := p.sorted ++ p.child
      total := p.total + p.child.length
      child := [] }

/-- `OrderPlan.Next`: on a first call (`total = 0`) drain the child via
`prepare`, then serve rows by repeated heap extraction while
`pos < total`; end-of-stream is the `none` sentinel. A `heapPop` abort
(empty heap, or a comparison panic — both impossible in Go runs that
reach this point without aborting earlier) is folded into the sentinel;
the sorting theorem's hypotheses exclude it. -/
def OrderPlan.Next (p : OrderPlan) : Option KVPair × OrderPlan :=
  let p1 := if p.total = 0 then p.prepare else p
  if p1.pos < p1.total then
    match heapPop (orderRow.Less p1.Orders) p1.sorted with
    | some (m, rest) => (some m, { p1 with pos := p1.pos + 1, sorted := rest })
    | none => (none, p1)
  else (none, p1)

/-- The state produced by `OrderPlan.Init` over a child stream (counters
zeroed, heap empty; a child `Init` error is discarded by the Go code). -/
def OrderPlan.start (orders : List OrderField) (rows : List KVPair) : OrderPlan :=
  { Orders := orders, pos := 0, total := 0, sorted := [], child := rows }

/-- `OrderPlan.Init`: zero the counters, create the heap, call the child
plan's `Init` (whose outcome is the parameter here) and return nil
unconditionally — the child's error is discarded. -/
def OrderPlan.Init (childInitRes : Except Err (List KVPair)) (orders : List OrderField) :
    Except Err OrderPlan :=
  .ok (OrderPlan.start orders (match childInitRes with
    | .ok rows => rows
    | .error _ => []))

/-- `FinalOrderPlan.findOrderIdx`: resolve an order field's column name
to its first position in the child's field-name list, erroring when the
name does not occur. -/
def FinalOrderPlan.findOrderIdx (fieldNames : List String) (o : OrderField) : Except Err Nat :=
  match fieldNames.findIdx? (fun fn => o.Name = fn) with
  | some i => .ok i
  | none => .error ("Cannot find field: " ++ o.Name)

/-- The resolution loop of `FinalOrderPlan.Init`: positions and declared
types are collected in order, the first unresolvable name aborting with
its error. -/
def finalOrderResolve (fieldNames : List String) :
    List OrderField → Except Err (List Nat × List Ty)
  | [] => .ok ([], [])
  | o :: rest =>
    match FinalOrderPlan.findOrderIdx fieldNames o with
    | .error e => .error e
    | .ok idx =>
      match finalOrderResolve fieldNames rest with
      | .error e => .error e
      | .ok (ps, ts) => .ok (idx :: ps, ReturnType o.Field :: ts)

/-- Output column tuples of final plans (byte-serialized values). -/
abbrev Column := Bytes

/-- `FinalOrderPlan` state as left by `Init` (the sort machinery of this
plan is outside the claims; only initialization is modelled). -/
structure FinalOrderPlan where
  Orders : List OrderField
  FieldNames : List String
  pos : Int
  total : Int
  orderPos : List Nat
  orderTypes : List Ty
  child : List (List Column)

/-- `FinalOrderPlan.Init`: zero the counters, resolve every order
field's column position (erroring only when a name is not found), create
the heap, call the child plan's `Init` (outcome passed as a parameter)
and ignore its result. -/
def FinalOrderPlan.Init (childInitRes : Except Err (List (List Column)))
    (orders : List OrderField) (fieldNames : List String) : Except Err FinalOrderPlan :=
  match finalOrderResolve fieldNames orders with
  | .error e => .error e
  | .ok (ps, ts) =>
    .ok { Orders := orders
          FieldNames := fieldNames
          pos := 0
          total := 0
          orderPos := ps
          orderTypes := ts
          child := (match childInitRes with
            | .ok rows => rows
            | .error _ => []) }

/-- Decimal digit accumulator for `strconv` parsing: `none` on an empty
or non-digit input (ASCII 48-57), otherwise the accumulated value. -/
def digitsValAux : Nat → List Nat → Option Nat
  | acc, [] => some acc
  | acc, c :: cs =>
    if 48 ≤ c ∧ c ≤ 57 then digitsValAux (acc * 10 + (c - 48)) cs
    else none

/-- Modelled from the spec: Go `strconv.ParseInt(s, 10, 64)` (standard
library): an optional sign followed by at least one decimal digit, the
value required to fit a signed 64-bit integer; anything else (including
the empty string, stray bytes, or an out-of-range value) fails. -/
def parseInt (s : Bytes) : Option Int :=
  match s with
  | [] => none
  | c :: cs =>
    if c = 43 then
      match cs with
      | [] => none
      | _ =>
        match digitsValAux 0 cs with
        | some n => if n ≤ 2 ^ 63 - 1 then some (n : Int) else none
        | none => none
    else if c = 45 then
      match cs with
      | [] => none
      | _ =>
        match digitsValAux 0 cs with
        | some n => if n ≤ 2 ^ 63 then some (-(n : Int)) else none
        | none => none
    else
      match digitsValAux 0 s with
      | some n => if n ≤ 2 ^ 63 - 1 then some (n : Int) else none
      | none => none

/-- Byte-level digit test for `parseFloat`. -/
def isDigitByte (c : Nat) : Bool := 48 ≤ c ∧ c ≤ 57

/-- Digits-to-value helper for `parseFloat` (digits already validated). -/
def digitsToNat (ds : Bytes) : Nat :=
  ds.foldl (fun a c => a * 10 + (c - 48)) 0

/-- Modelled from the spec: Go `strconv.ParseFloat(s, 64)` (standard
library) on the ordinary decimal forms: optional sign, decimal digits
with an optional fraction (at least one digit overall) and an optional
decimal exponent. The numeric value is modelled exactly as a rational;
IEEE-754 rounding, hexadecimal floats, underscores, infinities and NaN
are not modelled (no claim depends on them — the claims only consume
parse success and failure, and comparisons of exactly-represented
values). -/
def parseFloat (s : Bytes) : Option Rat :=
  let (sgn, s1) : Rat × Bytes :=
    match s with
    | 43 :: rest => (1, rest)
    | 45 :: rest => (-1, rest)
    | _ => (1, s)
  let (ip, r1) := s1.span isDigitByte
  let (fp, r2) : Bytes × Bytes :=
    match r1 with
    | 46 :: rest => rest.span isDigitByte
    | _ => ([], r1)
  let consumedDot : Bool := match r1 with
    | 46 :: _ => true
    | _ => false
  let r2' := if consumedDot then r2 else r1
  if ip = [] ∧ fp = [] then none
  else
    let mant : Rat := (digitsToNat (ip ++ fp) : Rat) / ((10 : Rat) ^ fp.length)
    match r2' with
    | [] => some (sgn * mant)
    | e :: erest =>
      if e = 101 ∨ e = 69 then
        let (esgn, er) : Bool × Bytes :=
          match erest with
          | 43 :: rest => (false, rest)
          | 45 :: rest => (true, rest)
          | _ => (false, erest)
        let (eds, er2) := er.span isDigitByte
        if eds = [] ∨ er2 ≠ [] then none
        else
          let ex := digitsToNat eds
          if esgn then some (sgn * mant / ((10 : Rat) ^ ex))
          else some (sgn * mant * ((10 : Rat) ^ ex))
      else none

/-- `orderColumnsRow.compareInt`: three-way comparison of two parsed
64-bit integers, inverted by `reverse`. -/
def orderColumnsRow.compareInt (lval rval : Int) (reverse : Bool) : Int :=
  if lval = rval then 0
  else if reverse then (if lval > rval then -1 else 1)
  else if lval < rval then -1 else 1

/-- `orderColumnsRow.compareFloat`: three-way comparison of two parsed
64-bit floats (modelled as rationals), inverted by `reverse`. -/
def orderColumnsRow.compareFloat (lval rval : Rat) (reverse : Bool) : Int :=
  if lval = rval then 0
  else if reverse then (if lval > rval then -1 else 1)
  else if lval < rval then -1 else 1

/-- `orderColumnsRow.compareNumber`: the NUMBER comparator of
`FinalOrderPlan` over byte-serialized column values. Both operands are
parsed as signed 64-bit integers and compared when both parses succeed;
otherwise both are parsed as 64-bit floats and compared when both float
parses succeed; otherwise the values compare as equal (0) — the function
is total and raises no error. -/
def orderColumnsRow.compareNumber (lval rval : Bytes) (reverse : Bool) : Int :=
  match parseInt lval with
  | some lint =>
    match parseInt rval with
    | some rint => orderColumnsRow.compareInt lint rint reverse
    | none =>
      match parseFloat lval, parseFloat rval with
      | some lf, some rf => orderColumnsRow.compareFloat lf rf reverse
      | _, _ => 0
  | none =>
    match parseFloat lval, parseFloat rval with
    | some lf, some rf => orderColumnsRow.compareFloat lf rf reverse
    | _, _ => 0


/-! ## Agreement of the named Go methods with the `Execute` arms -/

theorem Execute_Eq_arm (l r : Expr) (kv : KVPair) :
    Execute (.binaryOp .Eq l r) kv = BinaryOpExpr.execEqual l r kv := rfl

theorem Execute_And_arm (l r : Expr) (kv : KVPair) :
    Execute (.binaryOp .And l r) kv = BinaryOpExpr.execAnd l r kv := rfl

theorem Execute_Or_arm (l r : Expr) (kv : KVPair) :
    Execute (.binaryOp .Or l r) kv = BinaryOpExpr.execOr l r kv := rfl

/-! ## C1: rows yielded by the scan plans pass the filter and the bounds -/

theorem fullScanLoop_ok (f : FilterExec) (rows : List KVPair) :
    ∀ row rest, fullScanLoop f rows = (.ok (some row), rest) → f.Filter row = .ok true := by
  induction rows with
  | nil => intro row rest h; simp [fullScanLoop] at h
  | cons head tail ih =>
    intro row rest h
    simp only [fullScanLoop] at h
    split at h
    · simp at h
    · simp only [Prod.mk.injEq, Except.ok.injEq, Option.some.injEq] at h
      obtain ⟨rfl, rfl⟩ := h
      assumption
    · exact ih row rest h

theorem prefixScanLoop_ok (f : FilterExec) (pfx : Bytes) (rows : List KVPair) :
    ∀ row rest, prefixScanLoop f pfx rows = (.ok (some row), rest) →
      f.Filter row = .ok true ∧ pfx.isPrefixOf row.key = true := by
  induction rows with
  | nil => intro row rest h; simp [prefixScanLoop] at h
  | cons head tail ih =>
    intro row rest h
    simp only [prefixScanLoop] at h
    split at h
    · rename_i hp
      split at h
      · simp at h
      · simp only [Prod.mk.injEq, Except.ok.injEq, Option.some.injEq] at h
        obtain ⟨rfl, rfl⟩ := h
        exact ⟨by assumption, hp⟩
      · exact ih row rest h
    · simp at h

theorem rangeScanLoop_ok (f : FilterExec) (endB : Option Bytes) (rows : List KVPair) :
    ∀ row rest, rangeScanLoop f endB rows = (.ok (some row), rest) →
      f.Filter row = .ok true ∧ rangeKeyPastEnd endB row.key = false := by
  induction rows with
  | nil => intro row rest h; simp [rangeScanLoop] at h
  | cons head tail ih =>
    intro row rest h
    simp only [rangeScanLoop] at h
    split at h
    · simp at h
    · rename_i hp
      split at h
      · simp at h
      · simp only [Prod.mk.injEq, Except.ok.injEq, Option.some.injEq] at h
        obtain ⟨rfl, rfl⟩ := h
        exact ⟨by assumption, Bool.not_eq_true _ ▸ hp⟩
      · exact ih row rest h

/-- C1: every row a scan plan's `Next` yields (non-nil key) passes the
filter adapter; a `PrefixScanPlan` row additionally carries the
configured prefix as a byte prefix of its key, and a `RangeScanPlan` row
satisfies `key <= End` byte-lexicographically whenever an end bound is
set. -/
theorem scan_rows_pass_filter_and_bounds :
    (∀ (p : FullScanPlan) (row : KVPair),
        (FullScanPlan.Next p).1 = .ok (some row) → p.Filter.Filter row = .ok true)
    ∧ (∀ (p : PrefixScanPlan) (row : KVPair),
        (PrefixScanPlan.Next p).1 = .ok (some row) →
          p.Filter.Filter row = .ok true ∧ p.pfx <+: row.key)
    ∧ (∀ (p : RangeScanPlan) (row : KVPair) (e : Bytes),
        (RangeScanPlan.Next p).1 = .ok (some row) →
          p.Filter.Filter row = .ok true ∧ (p.End = some e → bytesCompare row.key e ≤ 0)) := by
  refine ⟨?_, ?_, ?_⟩
  · intro p row h
    exact fullScanLoop_ok p.Filter p.iter row (fullScanLoop p.Filter p.iter).2
      (by rw [Prod.ext_iff]; exact ⟨h, rfl⟩)
  · intro p row h
    have := prefixScanLoop_ok p.Filter p.pfx p.iter row (prefixScanLoop p.Filter p.pfx p.iter).2
      (by rw [Prod.ext_iff]; exact ⟨h, rfl⟩)
    exact ⟨this.1, List.isPrefixOf_iff_prefix.mp this.2⟩
  · intro p row e h
    have := rangeScanLoop_ok p.Filter p.End p.iter row (rangeScanLoop p.Filter p.End p.iter).2
      (by rw [Prod.ext_iff]; exact ⟨h, rfl⟩)
    refine ⟨this.1, fun he => ?_⟩
    have h2 := this.2
    rw [he] at h2
    simp only [rangeKeyPastEnd, decide_eq_false_iff_not, not_lt] at h2
    omega

/-- C1 witness: concrete full, prefix and range scans over one-row
cursors, instantiating each conjunct of
`scan_rows_pass_filter_and_bounds`. -/
theorem scan_rows_pass_filter_and_bounds_witness :
    (FilterExec.mk (.bool true)).Filter ⟨[97], [0]⟩ = .ok true
    ∧ ((FilterExec.mk (.bool true)).Filter ⟨[97, 49], [0]⟩ = .ok true ∧ [97] <+: [97, 49])
    ∧ ((FilterExec.mk (.bool true)).Filter ⟨[97], [0]⟩ = .ok true ∧
        ((some [98] : Option Bytes) = some [98] → bytesCompare [97] [98] ≤ 0)) :=
  ⟨scan_rows_pass_filter_and_bounds.1 ⟨⟨.bool true⟩, [⟨[97], [0]⟩]⟩ ⟨[97], [0]⟩ rfl,
   scan_rows_pass_filter_and_bounds.2.1 ⟨⟨.bool true⟩, [97], [⟨[97, 49], [0]⟩]⟩ ⟨[97, 49], [0]⟩ rfl,
   scan_rows_pass_filter_and_bounds.2.2 ⟨⟨.bool true⟩, some [98], [⟨[97], [0]⟩]⟩ ⟨[97], [0]⟩ [98] rfl⟩

/-! ## C2: the between bounds check is strict, rejecting equal bounds -/

/-- C2: evaluation of `between` at the spec's examples and at the failing
input. With left "m" and bounds ["a","z"] the result is true, and with
inverted bounds ["z","a"] it is the lower-greater-than-upper error, as
the claim states; but with equal bounds ["m","m"] the code also errors
(its bounds check is the strict `lower < upper`), although the claim
states the check passes for lower = upper and the result is then
left = bound. The number path behaves identically at bounds [5,5], and
the `Execute` dispatch reaches the same error. -/
theorem between_bounds_check_strict :
    BinaryOpExpr.execStringBetween (.str [109]) (.list [.str [97], .str [122]]) ⟨[], []⟩ =
      .ok (.bool true)
    ∧ BinaryOpExpr.execStringBetween (.str [109]) (.list [.str [122], .str [97]]) ⟨[], []⟩ =
      .error "operator between lower boundary is greater than upper boundary."
    ∧ BinaryOpExpr.execStringBetween (.str [109]) (.list [.str [109], .str [109]]) ⟨[], []⟩ =
      .error "operator between lower boundary is greater than upper boundary."
    ∧ Execute (.binaryOp .Between (.str [109]) (.list [.str [109], .str [109]])) ⟨[], []⟩ =
      .error "operator between lower boundary is greater than upper boundary."
    ∧ BinaryOpExpr.execNumberBetween (.num 5) (.list [.num 5, .num 5]) ⟨[], []⟩ =
      .error "operator between lower boundary is greater than upper boundary." :=
  ⟨rfl, rfl, rfl, rfl, rfl⟩

/-! ## C5: equality dispatches on the left runtime value, not the static type -/

/-- C5 counterexample: both operands of `=` are number-typed (float
literals), yet evaluation is an error instead of the claimed
type-directed integer equality — `execEqual` switches on the left
operand's runtime value, whose float shape falls to the error default. -/
theorem execEqual_numberTyped_float_errors :
    ReturnType (.float 1) = Ty.TNUMBER
    ∧ Execute (.binaryOp .Eq (.float 1) (.float 1)) ⟨[], []⟩ =
      .error "Invalid = operator left type" :=
  ⟨rfl, rfl⟩

/-- C5 (amended): `execEqual` selects the comparison by the left
operand's runtime value: byte or string values compare as byte
sequences, integer values as integers, booleans logically; a left value
of any other shape — floats included, despite being number-typed — is an
error, as is a right value that does not convert to the left shape. -/
theorem execEqual_runtime_dispatch :
    (∀ (l r : Expr) (kv : KVPair) (b1 b2 : Bytes),
        Execute l kv = .ok (.bytes b1) → Execute r kv = .ok (.bytes b2) →
        BinaryOpExpr.execEqual l r kv = .ok (.bool (b1 = b2)))
    ∧ (∀ (l r : Expr) (kv : KVPair) (i1 i2 : Int),
        Execute l kv = .ok (.int i1) → Execute r kv = .ok (.int i2) →
        BinaryOpExpr.execEqual l r kv = .ok (.bool (i1 = i2)))
    ∧ (∀ (l r : Expr) (kv : KVPair) (b1 b2 : Bool),
        Execute l kv = .ok (.bool b1) → Execute r kv = .ok (.bool b2) →
        BinaryOpExpr.execEqual l r kv = .ok (.bool (b1 = b2)))
    ∧ (∀ (l r : Expr) (kv : KVPair) (q : Rat) (v : Value),
        Execute l kv = .ok (.float q) → Execute r kv = .ok v →
        BinaryOpExpr.execEqual l r kv = .error "Invalid = operator left type")
    ∧ (∀ (l r : Expr) (kv : KVPair) (i : Int) (b : Bytes),
        Execute l kv = .ok (.int i) → Execute r kv = .ok (.bytes b) →
        BinaryOpExpr.execEqual l r kv = .error "Invalid = operator left type") := by
  refine ⟨?_, ?_, ?_, ?_, ?_⟩ <;> intro l r kv a1 a2 h1 h2 <;>
    simp only [BinaryOpExpr.execEqual, h1, h2, execEqualVals, convertToByteArray, convertToInt]

/-- C5 witness: the amended dispatch at concrete inputs — equal byte
literals, equal integers, equal booleans, a float left operand erroring,
and an integer/bytes mix erroring. -/
theorem execEqual_runtime_dispatch_witness :
    BinaryOpExpr.execEqual (.str [97]) (.str [97]) ⟨[], []⟩ = .ok (.bool ([97] = [97]))
    ∧ BinaryOpExpr.execEqual (.num 5) (.num 5) ⟨[], []⟩ = .ok (.bool ((5 : Int) = 5))
    ∧ BinaryOpExpr.execEqual (.bool true) (.bool true) ⟨[], []⟩ = .ok (.bool (true = true))
    ∧ BinaryOpExpr.execEqual (.float 1) (.num 0) ⟨[], []⟩ =
      .error "Invalid = operator left type"
    ∧ BinaryOpExpr.execEqual (.num 1) (.str [53]) ⟨[], []⟩ =
      .error "Invalid = operator left type" :=
  ⟨execEqual_runtime_dispatch.1 (.str [97]) (.str [97]) ⟨[], []⟩ [97] [97] rfl rfl,
   execEqual_runtime_dispatch.2.1 (.num 5) (.num 5) ⟨[], []⟩ 5 5 rfl rfl,
   execEqual_runtime_dispatch.2.2.1 (.bool true) (.bool true) ⟨[], []⟩ true true rfl rfl,
   execEqual_runtime_dispatch.2.2.2.1 (.float 1) (.num 0) ⟨[], []⟩ 1 (.int 0) rfl rfl,
   execEqual_runtime_dispatch.2.2.2.2 (.num 1) (.str [53]) ⟨[], []⟩ 1 [53] rfl rfl⟩

/-! ## C6: logical AND/OR, strict boolean typing, short-circuiting -/

/-- C6: logical AND and OR require boolean operands and error on a
non-boolean operand, with short-circuiting: a false left operand makes
AND return false, and a true left operand makes OR return true, in both
cases for every right operand (which is therefore never evaluated — even
one whose evaluation would error). -/
theorem and_or_strict_bool_short_circuit :
    (∀ (l r : Expr) (kv : KVPair),
        Execute l kv = .ok (.bool false) → BinaryOpExpr.execAnd l r kv = .ok (.bool false))
    ∧ (∀ (l r : Expr) (kv : KVPair) (b : Bool),
        Execute l kv = .ok (.bool true) → Execute r kv = .ok (.bool b) →
        BinaryOpExpr.execAnd l r kv = .ok (.bool b))
    ∧ (∀ (l r : Expr) (kv : KVPair) (v : Value),
        Execute l kv = .ok v → (∀ b, v ≠ .bool b) →
        BinaryOpExpr.execAnd l r kv = .error "& left value type not bool")
    ∧ (∀ (l r : Expr) (kv : KVPair) (v : Value),
        Execute l kv = .ok (.bool true) → Execute r kv = .ok v → (∀ b, v ≠ .bool b) →
        BinaryOpExpr.execAnd l r kv = .error "& right value type not bool")
    ∧ (∀ (l r : Expr) (kv : KVPair),
        Execute l kv = .ok (.bool true) → BinaryOpExpr.execOr l r kv = .ok (.bool true))
    ∧ (∀ (l r : Expr) (kv : KVPair) (b : Bool),
        Execute l kv = .ok (.bool false) → Execute r kv = .ok (.bool b) →
        BinaryOpExpr.execOr l r kv = .ok (.bool b))
    ∧ (∀ (l r : Expr) (kv : KVPair) (v : Value),
        Execute l kv = .ok v → (∀ b, v ≠ .bool b) →
        BinaryOpExpr.execOr l r kv = .error "| left value type not bool")
    ∧ (∀ (l r : Expr) (kv : KVPair) (v : Value),
        Execute l kv = .ok (.bool false) → Execute r kv = .ok v → (∀ b, v ≠ .bool b) →
        BinaryOpExpr.execOr l r kv = .error "| right value type not bool") := by
  refine ⟨?_, ?_, ?_, ?_, ?_, ?_, ?_, ?_⟩
  · intro l r kv h1; simp only [BinaryOpExpr.execAnd, h1]
  · intro l r kv b h1 h2; simp only [BinaryOpExpr.execAnd, h1, h2]
  · intro l r kv v h1 hv
    simp only [BinaryOpExpr.execAnd, h1]
    cases v with
    | bool b => exact absurd rfl (hv b)
    | _ => rfl
  · intro l r kv v h1 h2 hv
    cases v with
    | bool b => exact absurd rfl (hv b)
    | _ => simp only [BinaryOpExpr.execAnd, h1, h2]
  · intro l r kv h1; simp only [BinaryOpExpr.execOr, h1]
  · intro l r kv b h1 h2; simp only [BinaryOpExpr.execOr, h1, h2]
  · intro l r kv v h1 hv
    simp only [BinaryOpExpr.execOr, h1]
    cases v with
    | bool b => exact absurd rfl (hv b)
    | _ => rfl
  · intro l r kv v h1 h2 hv
    cases v with
    | bool b => exact absurd rfl (hv b)
    | _ => simp only [BinaryOpExpr.execOr, h1, h2]

/-- C6 witness: concrete instances — in particular the right operand of
the short-circuit cases is a function call whose evaluation would error,
and the result is still the short-circuit value. -/
theorem and_or_strict_bool_short_circuit_witness :
    BinaryOpExpr.execAnd (.bool false) (.funcCall .TBOOL none (fun _ => .error "boom")) ⟨[], []⟩ =
      .ok (.bool false)
    ∧ BinaryOpExpr.execAnd (.bool true) (.bool true) ⟨[], []⟩ = .ok (.bool true)
    ∧ BinaryOpExpr.execAnd (.num 1) (.bool true) ⟨[], []⟩ = .error "& left value type not bool"
    ∧ BinaryOpExpr.execAnd (.bool true) (.num 1) ⟨[], []⟩ = .error "& right value type not bool"
    ∧ BinaryOpExpr.execOr (.bool true) (.funcCall .TBOOL none (fun _ => .error "boom")) ⟨[], []⟩ =
      .ok (.bool true)
    ∧ BinaryOpExpr.execOr (.bool false) (.bool false) ⟨[], []⟩ = .ok (.bool false)
    ∧ BinaryOpExpr.execOr (.num 1) (.bool true) ⟨[], []⟩ = .error "| left value type not bool"
    ∧ BinaryOpExpr.execOr (.bool false) (.num 1) ⟨[], []⟩ =
      .error "| right value type not bool" :=
  ⟨and_or_strict_bool_short_circuit.1 (.bool false) (.funcCall .TBOOL none (fun _ => .error "boom"))
      ⟨[], []⟩ rfl,
   and_or_strict_bool_short_circuit.2.1 (.bool true) (.bool true) ⟨[], []⟩ true rfl rfl,
   and_or_strict_bool_short_circuit.2.2.1 (.num 1) (.bool true) ⟨[], []⟩ (.int 1) rfl
      (fun _ h => nomatch h),
   and_or_strict_bool_short_circuit.2.2.2.1 (.bool true) (.num 1) ⟨[], []⟩ (.int 1) rfl rfl
      (fun _ h => nomatch h),
   and_or_strict_bool_short_circuit.2.2.2.2.1 (.bool true)
      (.funcCall .TBOOL none (fun _ => .error "boom")) ⟨[], []⟩ rfl,
   and_or_strict_bool_short_circuit.2.2.2.2.2.1 (.bool false) (.bool false) ⟨[], []⟩ false rfl rfl,
   and_or_strict_bool_short_circuit.2.2.2.2.2.2.1 (.num 1) (.bool true) ⟨[], []⟩ (.int 1) rfl
      (fun _ h => nomatch h),
   and_or_strict_bool_short_circuit.2.2.2.2.2.2.2 (.bool false) (.num 1) ⟨[], []⟩ (.int 1) rfl rfl
      (fun _ h => nomatch h)⟩

/-! ## C7: field access sentinels, type errors, and the negative-index panic -/

/-- C7 counterexample: a negative index into a list base does not yield
the empty-string sentinel (nor an error): the guard `idx < len(lval)`
passes and the Go indexing `lval[idx]` aborts with a runtime panic,
modelled as the `none` result — so evaluation can abort for an index
outside the bounds, contrary to the claim. -/
theorem execListAccess_negative_index_panics :
    execListAccess (-1) (.list [.int 0]) = none
    ∧ execListAccess (-1) (.list [.int 0]) ≠ some (.ok (.str [])) :=
  ⟨rfl, fun h => nomatch h⟩

/-- C7 (amended): field and index access behave as claimed except for
negative list indices. An empty-string base yields the empty-string
sentinel; a missing key in a mapping base yields the sentinel and a
present key its value; an index at or beyond the length of a list base
yields the sentinel and an index within bounds the element; a non-empty
string base or any other mismatched shape is a type error — but a
negative index on a list base is a Go runtime panic (the `none` result),
and that is the only way evaluation aborts. -/
theorem fieldAccess_sentinels_and_errors :
    (∀ fn, execDictAccess fn (.str []) = .ok (.str []))
    ∧ (∀ fn m, m.lookup fn = none → execDictAccess fn (.dict m) = .ok (.str []))
    ∧ (∀ fn m v, m.lookup fn = some v → execDictAccess fn (.dict m) = .ok v)
    ∧ (∀ fn s, s ≠ [] → execDictAccess fn (.str s) = .error "Invalid left type not JSON")
    ∧ (∀ fn b, execDictAccess fn (.bytes b) = .error "Invalid left type not JSON")
    ∧ (∀ (idx : Int) (vs : List Value), (vs.length : Int) ≤ idx →
        execListAccess idx (.list vs) = some (.ok (.str [])))
    ∧ (∀ (idx : Int) (vs : List Value) (v : Value), 0 ≤ idx → vs.get? idx.toNat = some v →
        execListAccess idx (.list vs) = some (.ok v))
    ∧ (∀ (idx : Int) (vs : List Value), idx < 0 → execListAccess idx (.list vs) = none)
    ∧ (∀ idx, execListAccess idx (.str []) = some (.ok (.str [])))
    ∧ (∀ (idx : Int) (s : Bytes), s ≠ [] →
        execListAccess idx (.str s) = some (.error "Invalid left type not List"))
    ∧ (∀ (idx : Int) (b : Bytes),
        execListAccess idx (.bytes b) = some (.error "Invalid left type not List"))
    ∧ (∀ (idx : Int) (v : Value), execListAccess idx v = none →
        idx < 0 ∧ ∃ vs, v = .list vs) := by
  refine ⟨?_, ?_, ?_, ?_, ?_, ?_, ?_, ?_, ?_, ?_, ?_, ?_⟩
  · intro fn; rfl
  · intro fn m h; simp only [execDictAccess, h]
  · intro fn m v h; simp only [execDictAccess, h]
  · intro fn s h; simp only [execDictAccess, if_neg h]
  · intro fn b; rfl
  · intro idx vs h
    simp only [execListAccess]
    rw [dif_neg (by omega)]
  · intro idx vs v h0 h
    have hlt : idx.toNat < vs.length := (List.get?_eq_some.mp h).1
    simp only [execListAccess]
    rw [dif_pos (by omega), dif_pos h0]
    have := (List.get?_eq_some.mp h).2
    simp only [Option.some.injEq, Except.ok.injEq]
    exact this
  · intro idx vs h
    simp only [execListAccess]
    rw [dif_pos (by omega : idx < (vs.length : Int)), dif_neg (by omega)]
  · intro idx; rfl
  · intro idx s h; simp only [execListAccess, if_neg h]
  · intro idx b; rfl
  · intro idx v h
    cases v with
    | list vs =>
      simp only [execListAccess] at h
      by_cases h2 : idx < (vs.length : Int)
      · rw [dif_pos h2] at h
        by_cases h1 : (0 : Int) ≤ idx
        · rw [dif_pos h1] at h; exact absurd h (by simp)
        · exact ⟨by omega, vs, rfl⟩
      · rw [dif_neg h2] at h; exact absurd h (by simp)
    | str s =>
      simp only [execListAccess] at h
      by_cases hs : s = []
      · rw [if_pos hs] at h; exact absurd h (by simp)
      · rw [if_neg hs] at h; exact absurd h (by simp)
    | bytes b => exact absurd h (by simp [execListAccess])
    | int i => exact absurd h (by simp [execListAccess])
    | float q => exact absurd h (by simp [execListAccess])
    | bool b => exact absurd h (by simp [execListAccess])
    | dict m => exact absurd h (by simp [execListAccess])
    | exprs => exact absurd h (by simp [execListAccess])

/-- C7 witness: the amended behavior at concrete inputs — sentinel for an
empty-string base, a missing key, and an index past the end; the element
for an in-bounds index; type errors for a non-empty string and a bytes
base; and the panic result only at a negative index. -/
theorem fieldAccess_sentinels_and_errors_witness :
    execDictAccess [107] (.str []) = .ok (.str [])
    ∧ execDictAccess [107] (.dict [([106], .int 1)]) = .ok (.str [])
    ∧ execDictAccess [106] (.dict [([106], .int 1)]) = .ok (.int 1)
    ∧ execDictAccess [107] (.str [120]) = .error "Invalid left type not JSON"
    ∧ execListAccess 2 (.list [.int 7]) = some (.ok (.str []))
    ∧ execListAccess 0 (.list [.int 7]) = some (.ok (.int 7))
    ∧ execListAccess (-1) (.list [.int 7]) = none
    ∧ execListAccess 0 (.str [120]) = some (.error "Invalid left type not List") :=
  ⟨fieldAccess_sentinels_and_errors.1 [107],
   fieldAccess_sentinels_and_errors.2.1 [107] [([106], .int 1)] rfl,
   fieldAccess_sentinels_and_errors.2.2.1 [106] [([106], .int 1)] (.int 1) rfl,
   fieldAccess_sentinels_and_errors.2.2.2.1 [107] [120] (fun h => nomatch h),
   fieldAccess_sentinels_and_errors.2.2.2.2.2.1 2 [.int 7] (by simp),
   fieldAccess_sentinels_and_errors.2.2.2.2.2.2.1 0 [.int 7] (.int 7) (by omega) rfl,
   fieldAccess_sentinels_and_errors.2.2.2.2.2.2.2.1 (-1) [.int 7] (by omega),
   fieldAccess_sentinels_and_errors.2.2.2.2.2.2.2.2.2.1 0 [120] (fun h => nomatch h)⟩

/-! ## C8: the final-order NUMBER comparator parse cascade -/

/-- C8: `orderColumnsRow.compareNumber` first parses both byte-serialized
operands as signed 64-bit integers and compares them when both parses
succeed; when either integer parse fails it parses both as 64-bit floats
and compares them when both float parses succeed; and when, in that
fallback, either float parse also fails, the operands compare as equal
(result 0) — the comparator is a total function and raises no error. -/
theorem compareNumber_parse_cascade :
    (∀ (lv rv : Bytes) (rev : Bool) (li ri : Int),
        parseInt lv = some li → parseInt rv = some ri →
        orderColumnsRow.compareNumber lv rv rev = orderColumnsRow.compareInt li ri rev)
    ∧ (∀ (lv rv : Bytes) (rev : Bool) (lf rf : Rat),
        (parseInt lv = none ∨ parseInt rv = none) →
        parseFloat lv = some lf → parseFloat rv = some rf →
        orderColumnsRow.compareNumber lv rv rev = orderColumnsRow.compareFloat lf rf rev)
    ∧ (∀ (lv rv : Bytes) (rev : Bool),
        (parseInt lv = none ∨ parseInt rv = none) →
        (parseFloat lv = none ∨ parseFloat rv = none) →
        orderColumnsRow.compareNumber lv rv rev = 0) := by
  refine ⟨?_, ?_, ?_⟩
  · intro lv rv rev li ri h1 h2
    simp only [orderColumnsRow.compareNumber, h1, h2]
  · intro lv rv rev lf rf hint h1 h2
    rcases hint with h | h
    · simp only [orderColumnsRow.compareNumber, h, h1, h2]
    · cases hl : parseInt lv with
      | none => simp only [orderColumnsRow.compareNumber, hl, h, h1, h2]
      | some li => simp only [orderColumnsRow.compareNumber, hl, h, h1, h2]
  · intro lv rv rev hint hfl
    rcases hint with h | h
    · rcases hfl with h2 | h2
      · simp only [orderColumnsRow.compareNumber, h, h2]
      · cases hl : parseFloat lv with
        | none => simp only [orderColumnsRow.compareNumber, h, hl]
        | some lf => simp only [orderColumnsRow.compareNumber, h, hl, h2]
    · cases hl : parseInt lv with
      | none =>
        rcases hfl with h2 | h2
        · simp only [orderColumnsRow.compareNumber, hl, h2]
        · cases hfll : parseFloat lv with
          | none => simp only [orderColumnsRow.compareNumber, hl, hfll]
          | some lf => simp only [orderColumnsRow.compareNumber, hl, hfll, h2]
      | some li =>
        rcases hfl with h2 | h2
        · simp only [orderColumnsRow.compareNumber, hl, h, h2]
        · cases hfll : parseFloat lv with
          | none => simp only [orderColumnsRow.compareNumber, hl, h, hfll]
          | some lf => simp only [orderColumnsRow.compareNumber, hl, h, hfll, h2]

/-- C8 witness: the column values "abc" and "def" (bytes 97,98,99 and
100,101,102) fail both the integer and the float parse, so the comparator
reports them equal. -/
theorem compareNumber_parse_cascade_witness :
    orderColumnsRow.compareNumber [97, 98, 99] [100, 101, 102] false = 0 :=
  compareNumber_parse_cascade.2.2 [97, 98, 99] [100, 101, 102] false
    (Or.inl (by decide)) (Or.inl (by decide))

/-! ## C3: LimitPlan discards Start rows then yields up to Count rows -/

theorem limitSkip_noskip (start skips : Int) (child : List KVPair) (h : ¬ skips < start) :
    limitSkip start skips child = (skips, child, false) := by
  cases child <;> simp [limitSkip, h]

theorem limitSkip_spec (start : Int) (child : List KVPair) :
    ∀ skips : Int, skips ≤ start →
      limitSkip start skips child =
        if (child.length : Int) < start - skips
        then (skips + child.length, [], true)
        else (start, child.drop (start - skips).toNat, false) := by
  induction child with
  | nil =>
    intro skips h
    by_cases hlt : skips < start
    · simp only [limitSkip, if_pos hlt, List.length_nil]
      rw [if_pos (by omega)]
      simp
    · simp only [limitSkip, if_neg hlt, List.length_nil]
      rw [if_neg (by omega)]
      have : skips = start := by omega
      simp [this]
  | cons head tail ih =>
    intro skips h
    by_cases hlt : skips < start
    · simp only [limitSkip, if_pos hlt]
      rw [ih (skips + 1) (by omega)]
      by_cases h2 : (tail.length : Int) < start - (skips + 1)
      · rw [if_pos h2, if_pos (by simp; omega)]
        rw [Prod.ext_iff, Prod.ext_iff]
        refine ⟨?_, rfl, rfl⟩
        simp only [List.length_cons]
        push_cast
        omega
      · rw [if_neg h2, if_neg (by simp; omega)]
        have h3 : (start - skips).toNat = (start - (skips + 1)).toNat + 1 := by omega
        rw [h3, List.drop_succ_cons]
    · rw [limitSkip_noskip _ _ _ hlt]
      have he : skips = start := by omega
      rw [if_neg (by simp; omega)]
      simp [he]

theorem limitRun_emit : ∀ (fuel : Nat) (p : LimitPlan), p.Start ≤ p.skips →
    limitRun fuel p = p.child.take (min fuel (p.Count - p.current).toNat) := by
  intro fuel
  induction fuel with
  | zero => intro p h; simp [limitRun]
  | succ n ih =>
    intro p h
    have hskip := limitSkip_noskip p.Start p.skips p.child (by omega)
    by_cases hc : p.current ≥ p.Count
    · simp only [limitRun, LimitPlan.Next, hskip, if_pos hc]
      have h0 : (p.Count - p.current).toNat = 0 := by omega
      simp [h0]
    · cases hchild : p.child with
      | nil =>
        rw [hchild] at hskip
        simp only [limitRun, LimitPlan.Next, hchild, hskip, if_neg hc]
        simp
      | cons row rest =>
        rw [hchild] at hskip
        simp only [limitRun, LimitPlan.Next, hchild, hskip, if_neg hc]
        rw [ih _ (by exact h)]
        dsimp only
        have h1 : (p.Count - p.current).toNat = (p.Count - (p.current + 1)).toNat + 1 := by
          omega
        rw [h1, Nat.succ_min_succ, List.take_succ_cons]

/-- C3: over a child plan yielding the list `rows` and any non-negative
`Start` and `Count`, running `LimitPlan.Next` to exhaustion yields
exactly `(rows.drop Start).take Count`: the first `Start` child rows are
discarded (with an early sentinel if the child exhausts during the
skip), then up to `Count` rows are served in child order, with the
sentinel after `Count` rows or on child exhaustion. -/
theorem limitPlan_offset_then_count (rows : List KVPair) (startN count : Int)
    (hs : 0 ≤ startN) (hc : 0 ≤ count) :
    limitRun (rows.length + 1) (LimitPlan.start startN count rows)
      = (rows.drop startN.toNat).take count.toNat := by
  by_cases hbig : (rows.length : Int) < startN
  · have hskip := limitSkip_spec startN rows 0 (by omega)
    rw [if_pos (by omega)] at hskip
    simp only [limitRun, LimitPlan.start, LimitPlan.Next, hskip]
    rw [List.drop_eq_nil_of_le (by omega)]
    simp
  · have hskip := limitSkip_spec startN rows 0 (by omega)
    rw [if_neg (by omega)] at hskip
    have hnext : LimitPlan.Next (LimitPlan.start startN count rows) =
        LimitPlan.Next { LimitPlan.start startN count (rows.drop startN.toNat) with skips := startN } := by
      simp only [LimitPlan.Next, LimitPlan.start, hskip,
        limitSkip_noskip startN startN (rows.drop startN.toNat) (by omega)]
      simp
    have hrun : limitRun (rows.length + 1) (LimitPlan.start startN count rows)
        = limitRun (rows.length + 1)
            { LimitPlan.start startN count (rows.drop startN.toNat) with skips := startN } := by
      simp only [limitRun, hnext]
    rw [hrun, limitRun_emit _ _ (by exact le_refl startN)]
    dsimp only [LimitPlan.start]
    rw [Int.sub_zero]
    rcases le_or_lt count.toNat (rows.length + 1) with hle | hlt
    · rw [Nat.min_eq_right hle]
    · rw [Nat.min_eq_left (by omega)]
      rw [List.take_of_length_le (by rw [List.length_drop]; omega),
        List.take_of_length_le (by rw [List.length_drop]; omega)]

/-- C3 witness: Limit(Start=2, Count=2) over a 5-row child yields exactly
rows 3 and 4, and Limit(Start=10, Count=1) over a 5-row child yields no
rows. -/
theorem limitPlan_offset_then_count_witness :
    limitRun 6 (LimitPlan.start 2 2
        [⟨[1], [1]⟩, ⟨[2], [2]⟩, ⟨[3], [3]⟩, ⟨[4], [4]⟩, ⟨[5], [5]⟩])
      = [⟨[3], [3]⟩, ⟨[4], [4]⟩]
    ∧ limitRun 6 (LimitPlan.start 10 1
        [⟨[1], [1]⟩, ⟨[2], [2]⟩, ⟨[3], [3]⟩, ⟨[4], [4]⟩, ⟨[5], [5]⟩])
      = [] :=
  ⟨(limitPlan_offset_then_count
      [⟨[1], [1]⟩, ⟨[2], [2]⟩, ⟨[3], [3]⟩, ⟨[4], [4]⟩, ⟨[5], [5]⟩] 2 2
      (by decide) (by decide)).trans (by decide),
   (limitPlan_offset_then_count
      [⟨[1], [1]⟩, ⟨[2], [2]⟩, ⟨[3], [3]⟩, ⟨[4], [4]⟩, ⟨[5], [5]⟩] 10 1
      (by decide) (by decide)).trans (by decide)⟩

/-! ## C10: OrderPlan.Init and FinalOrderPlan.Init discard the child Init error -/

/-- C10: `OrderPlan.Init` returns nil whatever the child's `Init`
returned, and `FinalOrderPlan.Init` succeeds exactly when every order
field's column name occurs in the child's field-name list — in
particular its outcome is the same for any two child `Init` results, so
it never fails because the child's `Init` failed. -/
theorem orderPlan_init_discards_child_error :
    (∀ (cr : Except Err (List KVPair)) (orders : List OrderField),
        (OrderPlan.Init cr orders).isOk = true)
    ∧ (∀ (cr : Except Err (List (List Column))) (orders : List OrderField)
          (fieldNames : List String),
        (FinalOrderPlan.Init cr orders fieldNames).isOk =
          orders.all (fun o => fieldNames.contains o.Name))
    ∧ (∀ (cr cr2 : Except Err (List (List Column))) (orders : List OrderField)
          (fieldNames : List String),
        (FinalOrderPlan.Init cr orders fieldNames).isOk =
          (FinalOrderPlan.Init cr2 orders fieldNames).isOk) := by
  have hres : ∀ (fieldNames : List String) (orders : List OrderField),
      (finalOrderResolve fieldNames orders).isOk =
        orders.all (fun o => fieldNames.contains o.Name) := by
    intro fieldNames orders
    induction orders with
    | nil => rfl
    | cons o rest ih =>
      have hbridge : (fieldNames.findIdx? (fun fn => o.Name = fn)).isSome =
          fieldNames.contains o.Name := by
        clear ih
        rw [List.findIdx?_isSome]
        induction fieldNames with
        | nil => rfl
        | cons fn fns ih2 =>
          rw [List.any_cons, List.contains_cons, ih2]
          congr 1
      simp only [List.all_cons, finalOrderResolve, FinalOrderPlan.findOrderIdx]
      cases hfi : fieldNames.findIdx? (fun fn => o.Name = fn) with
      | none =>
        have hc : fieldNames.contains o.Name = false := by rw [← hbridge, hfi]; rfl
        rw [hc]
        rfl
      | some i =>
        have hc : fieldNames.contains o.Name = true := by rw [← hbridge, hfi]; rfl
        rw [hc, Bool.true_and]
        cases hrest : finalOrderResolve fieldNames rest with
        | error e => rw [hrest] at ih; exact ih
        | ok v => rw [hrest] at ih; cases v; exact ih
  refine ⟨fun cr orders => rfl, ?_, ?_⟩
  · intro cr orders fieldNames
    rw [← hres fieldNames orders]
    simp only [FinalOrderPlan.Init]
    cases finalOrderResolve fieldNames orders with
    | error e => rfl
    | ok v => cases v; rfl
  · intro cr cr2 orders fieldNames
    simp only [FinalOrderPlan.Init]
    cases finalOrderResolve fieldNames orders with
    | error e => rfl
    | ok v => cases v; rfl

/-! ## C9: the end-of-stream sentinel persists -/

theorem limitSkip_cases : ∀ (start : Int) (child : List KVPair) (skips s2 : Int)
    (c2 : List KVPair) (b : Bool), limitSkip start skips child = (s2, c2, b) →
    (b = true → c2 = [] ∧ s2 < start) ∧ (b = false → ¬ s2 < start) := by
  intro start child
  induction child with
  | nil =>
    intro skips s2 c2 b h
    by_cases hlt : skips < start
    · simp only [limitSkip, if_pos hlt, Prod.mk.injEq] at h
      obtain ⟨rfl, rfl, rfl⟩ := h
      simp [hlt]
    · simp only [limitSkip, if_neg hlt, Prod.mk.injEq] at h
      obtain ⟨rfl, rfl, rfl⟩ := h
      simp [hlt]
  | cons row rest ih =>
    intro skips s2 c2 b h
    by_cases hlt : skips < start
    · simp only [limitSkip, if_pos hlt] at h
      exact ih _ _ _ _ h
    · simp only [limitSkip, if_neg hlt, Prod.mk.injEq] at h
      obtain ⟨rfl, rfl, rfl⟩ := h
      simp [hlt]

theorem mgLoop_sentinel_idx (get : Bytes → Except Err (Option Bytes)) (f : FilterExec)
    (keys : List Bytes) : ∀ (gas idx : Nat),
    (mgLoop get f keys gas idx).1 = .ok none → (mgLoop get f keys gas idx).2 = idx + gas := by
  intro gas
  induction gas with
  | zero => intro idx h; simp [mgLoop]
  | succ n ih =>
    intro idx h
    simp only [mgLoop] at h ⊢
    cases hg : get (keys.getD idx []) with
    | error e => rw [hg] at h; exact absurd h (by simp)
    | ok v =>
      cases v with
      | none =>
        simp only [hg] at h ⊢
        rw [ih (idx + 1) h]
        omega
      | some val =>
        simp only [hg] at h ⊢
        cases hf : f.Filter ⟨keys.getD idx [], val⟩ with
        | error e => simp only [hf] at h; exact absurd h (by simp)
        | ok b =>
          cases b with
          | true => simp only [hf] at h; exact absurd h (by simp)
          | false =>
            simp only [hf] at h ⊢
            rw [ih (idx + 1) h]
            omega

theorem order_persist (p : OrderPlan) (h : (OrderPlan.Next p).1 = none) :
    (OrderPlan.Next (OrderPlan.Next p).2).1 = none := by
  obtain ⟨orders, pos, total, sorted, child⟩ := p
  by_cases ht : total = 0
  · subst ht
    by_cases ht2 : (child.length : Int) = 0
    · have hce : child = [] := by
        cases child
        · rfl
        · exfalso
          simp only [List.length_cons] at ht2
          omega
      subst hce
      by_cases hpos : pos < (0 : Int)
      · cases hp : heapPop (orderRow.Less orders) sorted with
        | some mrest =>
          obtain ⟨m, rest⟩ := mrest
          simp [OrderPlan.Next, OrderPlan.prepare, hpos, hp] at h
        | none =>
          simp [OrderPlan.Next, OrderPlan.prepare, hpos, hp]
      · simp [OrderPlan.Next, OrderPlan.prepare, hpos]
    · by_cases hpos : pos < (child.length : Int)
      · cases hp : heapPop (orderRow.Less orders) (sorted ++ child) with
        | some mrest =>
          obtain ⟨m, rest⟩ := mrest
          simp [OrderPlan.Next, OrderPlan.prepare, hpos, hp] at h
        | none =>
          simp [OrderPlan.Next, OrderPlan.prepare, hpos, ht2, hp]
      · simp [OrderPlan.Next, OrderPlan.prepare, hpos, ht2]
  · by_cases hpos : pos < total
    · cases hp : heapPop (orderRow.Less orders) sorted with
      | some mrest =>
        obtain ⟨m, rest⟩ := mrest
        simp [OrderPlan.Next, ht, hpos, hp] at h
      | none => simp [OrderPlan.Next, ht, hpos, hp]
    · simp [OrderPlan.Next, ht, hpos]

/-- C9: once `Next` returns the end-of-stream sentinel (nil row and nil
error), every further `Next` call also returns the sentinel, for
`LimitPlan`, `OrderPlan` and `MultiGetPlan` (their children and cursors
being modelled as streams that keep returning the sentinel once
exhausted, which is the cursor contract this claim assumes). -/
theorem sentinel_persists :
    (∀ p : LimitPlan, (LimitPlan.Next p).1 = none →
        (LimitPlan.Next (LimitPlan.Next p).2).1 = none)
    ∧ (∀ p : OrderPlan, (OrderPlan.Next p).1 = none →
        (OrderPlan.Next (OrderPlan.Next p).2).1 = none)
    ∧ (∀ (get : Bytes → Except Err (Option Bytes)) (f : FilterExec) (p : MultiGetPlan),
        (MultiGetPlan.Next get f p).1 = .ok none →
        (MultiGetPlan.Next get f (MultiGetPlan.Next get f p).2).1 = .ok none) := by
  refine ⟨?_, fun p h => order_persist p h, ?_⟩
  · intro p h
    rcases hskip : limitSkip p.Start p.skips p.child with ⟨s2, c2, b⟩
    have hcase := limitSkip_cases p.Start p.child p.skips s2 c2 b hskip
    cases b with
    | true =>
      obtain ⟨hc2, hlt⟩ := hcase.1 rfl
      subst hc2
      simp only [LimitPlan.Next, hskip]
      have hskip2 : limitSkip p.Start s2 ([] : List KVPair) = (s2, [], true) := by
        simp [limitSkip, hlt]
      simp only [hskip2]
    | false =>
      have hge := hcase.2 rfl
      by_cases hcur : p.current ≥ p.Count
      · simp only [LimitPlan.Next, hskip, if_pos hcur]
        simp only [limitSkip_noskip p.Start s2 c2 hge, if_pos hcur]
      · simp only [LimitPlan.Next, hskip, if_neg hcur] at h ⊢
        cases c2 with
        | nil =>
          simp only [limitSkip_noskip p.Start s2 ([] : List KVPair) hge, if_neg hcur]
        | cons row rest => exact absurd h (by simp)
  · intro get f p h
    simp only [MultiGetPlan.Next] at h ⊢
    have hidx := mgLoop_sentinel_idx get f p.Keys (p.numKeys - p.idx) p.idx h
    have hz : p.numKeys - (mgLoop get f p.Keys (p.numKeys - p.idx) p.idx).2 = 0 := by
      rw [hidx]; omega
    rw [hz]
    rfl

/-- C9 witness: sentinel persistence at concrete exhausted plans — an
empty-child limit plan, an empty-child order plan, and a multi-get plan
past its key list. -/
theorem sentinel_persists_witness :
    (LimitPlan.Next (LimitPlan.Next ⟨0, 0, 0, 0, []⟩).2).1 = none
    ∧ (OrderPlan.Next (OrderPlan.Next ⟨[], 0, 0, [], []⟩).2).1 = none
    ∧ (MultiGetPlan.Next (fun _ => .ok none) ⟨.bool true⟩
        (MultiGetPlan.Next (fun _ => .ok none) ⟨.bool true⟩ ⟨[], 0, 0⟩).2).1 = .ok none :=
  ⟨sentinel_persists.1 ⟨0, 0, 0, 0, []⟩ rfl,
   sentinel_persists.2.1 ⟨[], 0, 0, [], []⟩ rfl,
   sentinel_persists.2.2 (fun _ => .ok none) ⟨.bool true⟩ ⟨[], 0, 0⟩ rfl⟩


/-! ## C4: OrderPlan yields a sorted permutation of its child rows -/

